import Mathlib

/-!
Shallow embedding of `schema/schema.py` (SAM CLI JSON-schema generation):
the `SamCliParameterSchema` and `SamCliCommandSchema` records, the
`clean_text`, `format_param`, `get_params_from_command`,
`retrieve_command_structure` and `generate_schema` functions, together with
theorems settling the specification claims about them.

JSON documents (Python dicts) are embedded as ordered association lists
`List (String × Json)` with Python `dict` update semantics: assigning to an
existing key replaces its value in place, assigning to a fresh key appends.
-/

/-- A JSON value (the shape of the documents the generator produces).
Numbers are embedded as rationals (the only literal appearing is `0.1`). -/
inductive Json where
  | null : Json
  | str : String → Json
  | num : ℚ → Json
  | bool : Bool → Json
  | arr : List Json → Json
  | obj : List (String × Json) → Json

/-- A Python runtime value, as far as parameter defaults need: `None`,
strings, integers, booleans, tuples and lists. -/
inductive PyValue where
  | none : PyValue
  | str : String → PyValue
  | int : Int → PyValue
  | bool : Bool → PyValue
  | tuple : List PyValue → PyValue
  | list : List PyValue → PyValue

/-- Python truthiness (`if value:`) on the embedded values: `None`, `""`,
`0`, `False` and empty sequences are falsy, everything else truthy. -/
def pyTruthy : PyValue → Bool
  | .none => false
  | .str s => !(s == "")
  | .int n => !(n == 0)
  | .bool b => b
  | .tuple xs => !xs.isEmpty
  | .list xs => !xs.isEmpty

/-- Python `list(d) if isinstance(d, tuple) else d`: the tuple-to-list conversion
applied to a default before it is stored (schema.py line 149). -/
def pyDetuple : PyValue → PyValue
  | .tuple xs => .list xs
  | v => v

/-- Rendering of a stored Python default value into the JSON document. -/
def pyToJson : PyValue → Json
  | .none => Json.null
  | .str s => Json.str s
  | .int n => Json.num n
  | .bool b => Json.bool b
  | .tuple xs => Json.arr (xs.attach.map (fun x => pyToJson x.1))
  | .list xs => Json.arr (xs.attach.map (fun x => pyToJson x.1))
decreasing_by
  all_goals { have := List.sizeOf_lt_of_mem x.2; simp; omega }

/-- Lookup in an ordered association list (Python `d[k]` / `k in d`):
the value at the first entry whose key matches. -/
def olookup (d : List (String × Json)) (k : String) : Option Json :=
  (d.find? (fun kv => kv.1 == k)).map (fun kv => kv.2)

/-- Python `d[k] = v` on an ordered dict: replace in place when the key is
present, append otherwise. -/
def updateKey (d : List (String × Json)) (k : String) (v : Json) :
    List (String × Json) :=
  if d.any (fun kv => kv.1 == k) then
    d.map (fun kv => if kv.1 == k then (k, v) else kv)
  else d ++ [(k, v)]

/-- Python `d.update(e)`: fold `updateKey` over the entries of `e`. -/
def dictUpdate (d e : List (String × Json)) : List (String × Json) :=
  e.foldl (fun acc kv => updateKey acc kv.1 kv.2) d

/-- Field access on a `Json.obj`; `none` on any other constructor. -/
def jGet : Json → String → Option Json
  | .obj d, k => olookup d k
  | _, _ => none

/-- Successive field access along a path of keys. -/
def jPath (j : Json) (ks : List String) : Option Json :=
  ks.foldl (fun o k => o.bind (fun j => jGet j k)) (some j)

/-! ### Text cleaning (`clean_text`, schema.py lines 111–115) -/

/-- The characters Python `str.strip()` removes (ASCII whitespace):
space, tab, newline, carriage return, vertical tab, form feed. -/
def isPySpace (c : Char) : Bool :=
  c == ' ' || c == '\t' || c == '\n' || c == '\r' ||
    c == Char.ofNat 11 || c == Char.ofNat 12

/-- The backspace character `\b` removed by `text.replace("\b", "")`. -/
def backspace : Char := Char.ofNat 8

/-- Python `s.strip(chars)` on a character list: drop the longest prefix
and suffix of characters satisfying `p`. -/
def pyStrip (p : Char → Bool) (l : List Char) : List Char :=
  ((l.dropWhile p).reverse.dropWhile p).reverse

/-- The character-level pipeline of `clean_text`:
`text.replace("\b", "").strip("\n").strip()` (replacing the single
character `\b` by the empty string removes every occurrence of it). -/
def cleanChars (l : List Char) : List Char :=
  pyStrip isPySpace (pyStrip (fun c => c == '\n') (l.filter (fun c => !(c == backspace))))

/-- The function `clean_text(text)` (schema.py lines 111–115); the argument is an
`Option String` so that the Python call `clean_text(None)` is covered:
both `None` and `""` are falsy and return `""`. -/
def clean_text (text : Option String) : String :=
  match text with
  | Option.none => ""
  | Option.some s => if s = "" then "" else String.mk (cleanChars s.data)

/-- Python `a or b` on an optional string falling back to a string:
`None` and `""` are falsy and select `b`. -/
def pyOrStr (a : Option String) (b : String) : String :=
  match a with
  | Option.none => b
  | Option.some s => if s = "" then b else s

/-- Python `s.lower()`: lower-case each character. -/
def pyLower (s : String) : String := String.mk (s.data.map Char.toLower)

/-- Splitting a character list on a separator character; the empty list
splits into `[[]]`, like Python `"".split(sep)` gives `[""]`. -/
def splitOnCharAux (sep : Char) : List Char → List (List Char)
  | [] => [[]]
  | c :: rest =>
    let r := splitOnCharAux sep rest
    if c == sep then [] :: r
    else
      match r with
      | [] => [[c]]
      | h :: t => (c :: h) :: t

/-- Python `s.split(sep)` for a one-character separator (the code only
splits on `"_"` and `"."`). -/
def pySplit (s : String) (sep : Char) : List String :=
  (splitOnCharAux sep s.data).map String.mk

/-! ### Parameter and command records (schema.py lines 23–108) -/

/-- The dataclass `SamCliParameterSchema` (schema.py lines 23–48). `default` is
`Optional[Any] = None`, embedded as a `PyValue` with `PyValue.none` for
Python `None`; `choices` is only ever `None` or a list of strings. -/
structure SamCliParameterSchema where
  name : String
  type : String
  description : String := ""
  default : PyValue := PyValue.none
  items : Option String := Option.none
  choices : Option (List String) := Option.none

/-- Truthiness of the `items` field (`if self.items:`): `None` and the
empty string are falsy. -/
def itemsTruthy : Option String → Bool
  | Option.none => false
  | Option.some s => !(s == "")

/-- Truthiness of the `choices` field (`if self.choices:`): `None` and the
empty list are falsy. -/
def choicesTruthy : Option (List String) → Bool
  | Option.none => false
  | Option.some cs => !cs.isEmpty

/-- The method `SamCliParameterSchema.to_schema` (schema.py lines 38–48). The four
`param.update` calls write the distinct keys `title`/`type`/`description`,
`default`, `items`, `enum` into an initially empty dict, so each update
appends its entries in order. -/
def SamCliParameterSchema.to_schema (p : SamCliParameterSchema) :
    List (String × Json) :=
  [("title", Json.str p.name), ("type", Json.str p.type),
    ("description", Json.str p.description)]
  ++ (if pyTruthy p.default then [("default", pyToJson p.default)] else [])
  ++ (if itemsTruthy p.items then
        [("items", Json.obj [("type", Json.str (p.items.getD ""))])] else [])
  ++ (if choicesTruthy p.choices then
        [("enum", Json.arr ((p.choices.getD []).map Json.str))] else [])

/-- The hardcoded transitional exclusion list inside
`SamCliCommandSchema.to_schema` (schema.py lines 65–81). -/
def COMMANDS_TO_EXCLUDE : List String :=
  ["deploy", "build", "local", "validate", "package", "init", "delete",
    "bootstrap", "list", "traces", "sync", "publish", "pipeline", "logs",
    "remote"]

/-- Python `str.title()` for the ASCII strings at hand: a letter following
a non-letter is uppercased, a letter following a letter is lowercased. -/
def pyTitleAux : Bool → List Char → List Char
  | _, [] => []
  | prevAlpha, c :: rest =>
    (if c.isAlpha then (if prevAlpha then c.toLower else c.toUpper) else c)
      :: pyTitleAux c.isAlpha rest

/-- Python `s.title()`. -/
def pyTitle (s : String) : String := String.mk (pyTitleAux false s.data)

/-- The dataclass `SamCliCommandSchema` (schema.py lines 51–61): full command name with
underscores, description, and ordered parameter list. -/
structure SamCliCommandSchema where
  name : String
  description : String
  parameters : List SamCliParameterSchema

/-- The value of the single key of `SamCliCommandSchema.to_schema`
(schema.py lines 92–107): the inner dict describing one command. The dict
comprehension `{param.name: param.to_schema() for param in self.parameters}`
builds a dict keyed by parameter name with later duplicates overwriting
earlier ones, embedded as a fold of `updateKey` from the empty dict. -/
def SamCliCommandSchema.schemaValue (c : SamCliCommandSchema) : Json :=
  let split_cmd_name := pySplit c.name '_'
  let formatted_cmd_name := String.intercalate " " split_cmd_name
  let exclude_params := COMMANDS_TO_EXCLUDE.contains (split_cmd_name.headD "")
  let formatted_params_list :=
    if !exclude_params then
      "* " ++ String.intercalate "\n* "
        (c.parameters.map (fun param => param.name ++ ":\n" ++ param.description))
    else ""
  let params_description :=
    "Available parameters for the " ++ formatted_cmd_name ++ " command:\n"
      ++ formatted_params_list
  Json.obj
    [("title", Json.str (pyTitle formatted_cmd_name ++ " command")),
      ("description", Json.str c.description),
      ("properties", Json.obj
        [("parameters", Json.obj
          [("title", Json.str
              ("Parameters for the " ++ formatted_cmd_name ++ " command")),
            ("description", Json.str params_description),
            ("type", Json.str "object"),
            ("properties", Json.obj
              (if !exclude_params then
                c.parameters.foldl
                  (fun acc param =>
                    updateKey acc param.name (Json.obj param.to_schema)) []
              else []))])]),
      ("required", Json.arr [Json.str "parameters"])]

/-- The method `SamCliCommandSchema.to_schema` (schema.py lines 63–108): the one-key
dict `{self.name: …}`. -/
def SamCliCommandSchema.to_schema (c : SamCliCommandSchema) :
    List (String × Json) :=
  [(c.name, c.schemaValue)]

/-! ### The click-facing input model (external collaborator, §6 of the spec) -/

/-- The facet of a click parameter type that `format_param` reads:
`param.type.name` and, for choice types, `isinstance(param.type,
click.Choice)` together with `param.type.choices` (a sequence of strings
per the spec). -/
structure ClickParamType where
  name : String
  isChoice : Bool := false
  choices : List String := []

/-- The facet of a click parameter that `format_param` and
`get_params_from_command` read: `param.name` (possibly `None`), whether it
is a `click.core.Option`, its type, help text and default value. -/
structure ClickParameter where
  name : Option String
  isOption : Bool := true
  type : ClickParamType
  help : Option String := Option.none
  default : PyValue := PyValue.none

/-- The facet of a click command object that the extractor reads: its
name, help and short help texts, and its declared parameters in order. -/
structure ClickCommand where
  name : String
  help : Option String := Option.none
  short_help : Option String := Option.none
  params : List ClickParameter := []

/-- The object `module.cli` is either a `click.core.Group` with an ordered mapping of
subcommands (only the values are used) or a plain (leaf) command. -/
inductive ModuleCli where
  | group : List ClickCommand → ModuleCli
  | leaf : ClickCommand → ModuleCli

/-- A resolved command package: its module `__name__` and its `cli`
object. `importlib.import_module` is outside this repository, so a package
is embedded as the already-resolved module data. -/
structure CommandModule where
  name : String
  cli : ModuleCli

/-- Modelled from the spec: `SamConfig.to_key`, the Key-Joiner, lives in
`samcli/lib/config/samconfig.py` which is not part of this repository's
sources. The spec fixes underscore as its delimiter ("named `grp_a` and
`grp_b` (assuming underscore as the Key-Joiner's delimiter)"; command
names are "with underscores (i.e. remote_invoke, local_start_lambda)"). -/
def SamConfig_to_key (cmd_names : List String) : String :=
  String.intercalate "_" cmd_names

/-- Python `module.__name__.split(".")[-1]`: the package's short name. -/
def moduleShortName (s : String) : String := (pySplit s '.').getLastD ""

/-! ### `format_param` (schema.py lines 118–154) -/

/-- The type-mapping block of `format_param` (schema.py lines 130–139):
lower-case the declared type name, map the five string-like names to
`"string"`, `"list"` to `"array"`, the empty name to `"string"`
(`param_type or "string"`), and anything else to the lower-cased name. -/
def formattedParamType (param : ClickParameter) : String :=
  let param_type := pyLower param.type.name
  if ["text", "path", "choice", "filename", "directory"].contains param_type
    then "string"
  else if param_type == "list" then "array"
  else if param_type == "" then "string" else param_type

/-- The function `format_param(param)`: normalize one click Option into a
`SamCliParameterSchema`. -/
def format_param (param : ClickParameter) : SamCliParameterSchema :=
  let formatted_param_type := formattedParamType param
  let formatted_param : SamCliParameterSchema :=
    { name := param.name.getD ""
      type := formatted_param_type
      description := clean_text (Option.some (param.help.getD ""))
      items := if formatted_param_type == "array" then Option.some "string"
        else Option.none }
  let withDefault :=
    if pyTruthy param.default then
      { formatted_param with default := pyDetuple param.default }
    else formatted_param
  if param.type.name == "choice" && param.type.isChoice then
    { withDefault with choices := Option.some param.type.choices }
  else withDefault

/-! ### `get_params_from_command` (schema.py lines 157–167) -/

/-- The two reserved configuration-redirection option names. -/
def params_to_exclude : List String := ["config_env", "config_file"]

/-- Truthiness of `param.name` (`Optional[str]`). -/
def nameTruthy : Option String → Bool
  | Option.none => false
  | Option.some s => !(s == "")

/-- The function `get_params_from_command(cli)`: the declared options that have a
truthy name, are `click.core.Option` instances and are not reserved,
each passed through `format_param`. -/
def get_params_from_command (cli : ClickCommand) : List SamCliParameterSchema :=
  (cli.params.filter (fun param =>
    nameTruthy param.name && param.isOption &&
      !(params_to_exclude.contains (param.name.getD "")))).map format_param

/-! ### `retrieve_command_structure` (schema.py lines 170–209) -/

/-- The function `retrieve_command_structure(package_name)` on the resolved module: one
`SamCliCommandSchema` per subcommand of a group (in registry order, named
by the Key-Joiner over [package short name, subcommand name]), or exactly
one for a leaf command (named by the short name alone). -/
def retrieve_command_structure (m : CommandModule) : List SamCliCommandSchema :=
  match m.cli with
  | ModuleCli.group subs =>
      subs.map (fun subcommand =>
        SamCliCommandSchema.mk
          (SamConfig_to_key [moduleShortName m.name, subcommand.name])
          (clean_text (Option.some
            (pyOrStr subcommand.help (pyOrStr subcommand.short_help ""))))
          (get_params_from_command subcommand))
  | ModuleCli.leaf cli =>
      [SamCliCommandSchema.mk
        (SamConfig_to_key [moduleShortName m.name])
        (clean_text (Option.some (pyOrStr cli.help (pyOrStr cli.short_help ""))))
        (get_params_from_command cli)]

/-! ### `generate_schema` (schema.py lines 212–240) -/

/-- The `SchemaKeys` enum values used by `generate_schema`. -/
def SCHEMA_DRAFT : String := "http://json-schema.org/draft-04/schema"

/-- The value `SchemaKeys.TITLE`. -/
def SCHEMA_TITLE : String := "AWS SAM CLI samconfig schema"

/-- The value `SchemaKeys.ENVIRONMENT_REGEX`. -/
def ENVIRONMENT_REGEX : String := "^.+$"

/-- The flat command list accumulated from every registered package
(`commands.extend(retrieve_command_structure(package_name))`). The
registry `_SAM_CLI_COMMAND_PACKAGES` itself lives outside this
repository, so it is a parameter: a list of resolved command modules. -/
def allCommands (registry : List CommandModule) : List SamCliCommandSchema :=
  registry.foldl (fun acc m => acc ++ retrieve_command_structure m) []

/-- The `properties` dict inside the environment wrapper after the final
loop: each command's one-key schema fragment merged in order by
`dict.update`, later duplicates overwriting earlier ones. -/
def envProperties (registry : List CommandModule) : List (String × Json) :=
  (allCommands registry).foldl (fun acc c => dictUpdate acc c.to_schema) []

/-- The function `generate_schema()` as a function of the registry: the root dict in
assignment order (each key is fresh, so each assignment appends). -/
def generate_schema (registry : List CommandModule) : List (String × Json) :=
  [("$schema", Json.str SCHEMA_DRAFT),
    ("title", Json.str SCHEMA_TITLE),
    ("type", Json.str "object"),
    ("properties", Json.obj
      [("version", Json.obj
        [("title", Json.str "Config version"), ("type", Json.str "number"),
          ("default", Json.num (0.1 : ℚ))])]),
    ("required", Json.arr [Json.str "version"]),
    ("additionalProperties", Json.bool false),
    ("patternProperties", Json.obj
      [(ENVIRONMENT_REGEX, Json.obj
        [("title", Json.str "Environment"),
          ("properties", Json.obj (envProperties registry))])])]

/-! ### Lemmas about stripping and cleaning -/

lemma head?_dropWhile_false {α : Type} (p : α → Bool) (l : List α) {c : α}
    (h : (l.dropWhile p).head? = some c) : p c = false := by
  have h2 := List.head?_dropWhile_not p l
  rw [h] at h2
  exact h2

lemma dropWhile_eq_self_of_head {α : Type} (p : α → Bool) (l : List α)
    (h : ∀ c, l.head? = some c → p c = false) : l.dropWhile p = l := by
  cases l with
  | nil => rfl
  | cons a t =>
    refine List.dropWhile_cons_of_neg ?_
    have ha := h a rfl
    simp [ha]

lemma getLast?_dropWhile_of_ne_nil {α : Type} (p : α → Bool) (l : List α)
    (h : l.dropWhile p ≠ []) : (l.dropWhile p).getLast? = l.getLast? := by
  induction l with
  | nil => simp [List.dropWhile] at h
  | cons a t ih =>
    by_cases hp : p a = true
    · rw [List.dropWhile_cons_of_pos hp] at h ⊢
      have ht : t ≠ [] := by
        rintro rfl
        simp [List.dropWhile] at h
      rw [ih h]
      cases t with
      | nil => exact absurd rfl ht
      | cons b u => rw [List.getLast?_cons_cons]
    · rw [List.dropWhile_cons_of_neg hp]

lemma pyStrip_head? (p : Char → Bool) (l : List Char) {c : Char}
    (h : (pyStrip p l).head? = some c) : p c = false := by
  unfold pyStrip at h
  rw [List.head?_reverse] at h
  by_cases hne : (l.dropWhile p).reverse.dropWhile p = []
  · rw [hne] at h
    simp at h
  · rw [getLast?_dropWhile_of_ne_nil p _ hne, List.getLast?_reverse] at h
    exact head?_dropWhile_false p l h

lemma pyStrip_getLast? (p : Char → Bool) (l : List Char) {c : Char}
    (h : (pyStrip p l).getLast? = some c) : p c = false := by
  unfold pyStrip at h
  rw [List.getLast?_reverse] at h
  exact head?_dropWhile_false p _ h

lemma pyStrip_eq_self (p : Char → Bool) (l : List Char)
    (h1 : ∀ c, l.head? = some c → p c = false)
    (h2 : ∀ c, l.getLast? = some c → p c = false) : pyStrip p l = l := by
  unfold pyStrip
  rw [dropWhile_eq_self_of_head p l h1]
  rw [dropWhile_eq_self_of_head p l.reverse
    (fun c hc => h2 c (by rwa [List.head?_reverse] at hc))]
  exact List.reverse_reverse l

lemma mem_of_mem_pyStrip {p : Char → Bool} {l : List Char} {c : Char}
    (h : c ∈ pyStrip p l) : c ∈ l := by
  unfold pyStrip at h
  rw [List.mem_reverse] at h
  have h2 : c ∈ (l.dropWhile p).reverse :=
    List.Sublist.mem h (List.dropWhile_sublist p)
  rw [List.mem_reverse] at h2
  exact List.Sublist.mem h2 (List.dropWhile_sublist p)

lemma newline_isPySpace {c : Char} (h : (c == '\n') = true) :
    isPySpace c = true := by
  have hc : c = '\n' := by simpa using h
  subst hc
  decide

lemma cleanChars_no_backspace {l : List Char} {c : Char}
    (h : c ∈ cleanChars l) : (!(c == backspace)) = true := by
  unfold cleanChars at h
  have h1 := mem_of_mem_pyStrip h
  have h2 := mem_of_mem_pyStrip h1
  exact (List.mem_filter.mp h2).2

lemma cleanChars_head? {l : List Char} {c : Char}
    (h : (cleanChars l).head? = some c) : isPySpace c = false :=
  pyStrip_head? isPySpace _ h

lemma cleanChars_getLast? {l : List Char} {c : Char}
    (h : (cleanChars l).getLast? = some c) : isPySpace c = false :=
  pyStrip_getLast? isPySpace _ h

lemma cleanChars_idem (l : List Char) :
    cleanChars (cleanChars l) = cleanChars l := by
  have hfilter : (cleanChars l).filter (fun c => !(c == backspace)) = cleanChars l :=
    List.filter_eq_self.mpr (fun c hc => cleanChars_no_backspace hc)
  have hnl : pyStrip (fun c => c == '\n') (cleanChars l) = cleanChars l := by
    refine pyStrip_eq_self _ _ (fun c hc => ?_) (fun c hc => ?_)
    · have hsp := cleanChars_head? hc
      show (c == '\n') = false
      cases hbc : (c == '\n') with
      | false => rfl
      | true =>
        have h2 := newline_isPySpace hbc
        rw [hsp] at h2
        exact absurd h2 (by decide)
    · have hsp := cleanChars_getLast? hc
      show (c == '\n') = false
      cases hbc : (c == '\n') with
      | false => rfl
      | true =>
        have h2 := newline_isPySpace hbc
        rw [hsp] at h2
        exact absurd h2 (by decide)
  have hsp : pyStrip isPySpace (cleanChars l) = cleanChars l :=
    pyStrip_eq_self _ _ (fun c hc => cleanChars_head? hc)
      (fun c hc => cleanChars_getLast? hc)
  calc cleanChars (cleanChars l)
      = pyStrip isPySpace (pyStrip (fun c => c == '\n')
          ((cleanChars l).filter (fun c => !(c == backspace)))) := rfl
    _ = pyStrip isPySpace (pyStrip (fun c => c == '\n') (cleanChars l)) := by
          rw [hfilter]
    _ = pyStrip isPySpace (cleanChars l) := by rw [hnl]
    _ = cleanChars l := hsp

lemma clean_text_some (s : String) :
    clean_text (Option.some s) =
      if s = "" then "" else String.mk (cleanChars s.data) := rfl

/-- C9: `clean_text` is idempotent — for every string `s`,
`clean_text(clean_text(s)) = clean_text(s)` — and applied to `None` or the
empty string it returns the empty string. -/
theorem clean_text_idempotent :
    (∀ s : String,
      clean_text (Option.some (clean_text (Option.some s))) =
        clean_text (Option.some s))
      ∧ clean_text Option.none = "" ∧ clean_text (Option.some "") = "" := by
  refine ⟨fun s => ?_, rfl, rfl⟩
  by_cases hs : s = ""
  · subst hs
    rfl
  · rw [clean_text_some s, if_neg hs, clean_text_some]
    by_cases hmk : String.mk (cleanChars s.data) = ""
    · rw [if_pos hmk]
      exact hmk.symm
    · rw [if_neg hmk]
      have hdata : (String.mk (cleanChars s.data)).data = cleanChars s.data := rfl
      rw [hdata, cleanChars_idem]

/-- The description-cleaning step as the specification words it (§4.1):
remove the control (backspace) characters, strip leading and trailing
newlines, then strip remaining leading and trailing whitespace; empty or
absent input yields an empty string. -/
def cleanTextSpec (text : Option String) : String :=
  match text with
  | Option.none => ""
  | Option.some s =>
    let noBackspace := s.data.filter (fun c => !(c == backspace))
    let noEdgeNewlines := pyStrip (fun c => c == '\n') noBackspace
    let trimmed := pyStrip isPySpace noEdgeNewlines
    String.mk trimmed

/-- C10: the text-cleaning step of the code agrees everywhere with the
spec's description — strip backspace control characters, strip leading and
trailing newlines, then strip remaining leading and trailing whitespace,
with empty or absent input yielding the empty string. -/
theorem clean_text_matches_spec : ∀ t, clean_text t = cleanTextSpec t := by
  intro t
  cases t with
  | none => rfl
  | some s =>
    by_cases hs : s = ""
    · subst hs
      rfl
    · rw [clean_text_some s, if_neg hs]
      rfl

/-! ### Field lemmas for `format_param` -/

lemma format_param_name (p : ClickParameter) :
    (format_param p).name = p.name.getD "" := by
  unfold format_param
  dsimp only
  split <;> split <;> rfl

lemma format_param_type (p : ClickParameter) :
    (format_param p).type = formattedParamType p := by
  unfold format_param
  dsimp only
  split <;> split <;> rfl

lemma format_param_description (p : ClickParameter) :
    (format_param p).description = clean_text (Option.some (p.help.getD "")) := by
  unfold format_param
  dsimp only
  split <;> split <;> rfl

lemma format_param_items (p : ClickParameter) :
    (format_param p).items =
      (if formattedParamType p == "array" then Option.some "string"
        else Option.none) := by
  unfold format_param
  dsimp only
  split <;> split <;> rfl

lemma format_param_default (p : ClickParameter) :
    (format_param p).default =
      (if pyTruthy p.default then pyDetuple p.default else PyValue.none) := by
  unfold format_param
  dsimp only
  split <;> split <;> simp_all

lemma format_param_choices (p : ClickParameter) :
    (format_param p).choices =
      (if p.type.name == "choice" && p.type.isChoice
        then Option.some p.type.choices else Option.none) := by
  unfold format_param
  dsimp only
  split <;> split <;> simp_all

/-! ### Claim C2: the type mapping of `format_param` -/

/-- A descriptor whose declared type name is upper-case, exercising the
lower-casing in `format_param`. -/
def cpUpperInt : ClickParameter :=
  { name := Option.some "p", type := { name := "INT" } }

/-- C2 counterexample: a declared type name `"INT"` is not mapped to
itself verbatim — `format_param` maps it to the lower-cased `"int"`. -/
theorem format_param_type_not_verbatim :
    (format_param cpUpperInt).type = "int" ∧ ("int" : String) ≠ "INT" := by
  constructor
  · rfl
  · decide

/-- C2 (amended): `format_param` maps a declared type whose lower-cased
name is one of {text, path, choice, filename, directory} to exactly
"string"; maps "list" to "array" with items set to "string"; maps any
other declared type name to its lower-cased form (not the name verbatim);
and maps an empty declared type name to "string". -/
theorem format_param_type_mapping (p : ClickParameter) :
    (pyLower p.type.name ∈ ["text", "path", "choice", "filename", "directory"] →
      (format_param p).type = "string")
    ∧ (pyLower p.type.name = "list" →
      (format_param p).type = "array"
        ∧ (format_param p).items = Option.some "string")
    ∧ (pyLower p.type.name ∉ ["text", "path", "choice", "filename", "directory"] →
        pyLower p.type.name ≠ "list" → pyLower p.type.name ≠ "" →
      (format_param p).type = pyLower p.type.name)
    ∧ (pyLower p.type.name = "" → (format_param p).type = "string") := by
  refine ⟨fun h => ?_, fun h => ⟨?_, ?_⟩, fun h1 h2 h3 => ?_, fun h => ?_⟩
  · rw [format_param_type]
    unfold formattedParamType
    exact if_pos (List.elem_iff.mpr h)
  · rw [format_param_type]
    unfold formattedParamType
    rw [h]
    decide
  · rw [format_param_items]
    unfold formattedParamType
    rw [h]
    decide
  · rw [format_param_type]
    unfold formattedParamType
    rw [if_neg (fun hc => h1 (List.elem_iff.mp hc)),
      if_neg (fun hb => h2 (by simpa using hb)),
      if_neg (fun hb => h3 (by simpa using hb))]
  · rw [format_param_type]
    unfold formattedParamType
    rw [h]
    decide

/-- A descriptor with the string-like declared type `Text`. -/
def cpText : ClickParameter :=
  { name := Option.some "t", type := { name := "Text" } }

/-- A descriptor with declared type `list`. -/
def cpList : ClickParameter :=
  { name := Option.some "l", type := { name := "list" } }

/-- A descriptor with an empty declared type name. -/
def cpEmptyType : ClickParameter :=
  { name := Option.some "e", type := { name := "" } }

/-- Witness for C2: the four branches of the amended mapping at the
concrete descriptors. -/
theorem format_param_type_mapping_witness :
    (format_param cpText).type = "string"
    ∧ ((format_param cpList).type = "array"
        ∧ (format_param cpList).items = Option.some "string")
    ∧ (format_param cpUpperInt).type = pyLower cpUpperInt.type.name
    ∧ (format_param cpEmptyType).type = "string" :=
  ⟨(format_param_type_mapping cpText).1 (by decide),
    (format_param_type_mapping cpList).2.1 (by decide),
    (format_param_type_mapping cpUpperInt).2.2.1 (by decide) (by decide)
      (by decide),
    (format_param_type_mapping cpEmptyType).2.2.2 (by decide)⟩

/-! ### Claim C4: default handling -/

lemma pyTruthy_pyDetuple (v : PyValue) : pyTruthy (pyDetuple v) = pyTruthy v := by
  cases v <;> rfl

lemma to_schema_default (q : SamCliParameterSchema) :
    olookup q.to_schema "default" =
      (if pyTruthy q.default then Option.some (pyToJson q.default)
        else Option.none) := by
  unfold SamCliParameterSchema.to_schema olookup
  split <;> split <;> split <;> simp

/-- C4: a falsy default (None, empty string, 0, False, empty sequence)
yields no `default` key in the emitted schema fragment; a truthy default
is preserved, with a tuple-shaped default converted to a list before
storage. -/
theorem format_param_default_handling (p : ClickParameter) :
    (pyTruthy p.default = false →
      olookup (format_param p).to_schema "default" = Option.none)
    ∧ (pyTruthy p.default = true →
      (format_param p).default = pyDetuple p.default
        ∧ olookup (format_param p).to_schema "default" =
            Option.some (pyToJson (pyDetuple p.default))) := by
  constructor
  · intro h
    rw [to_schema_default, format_param_default, h]
    simp [pyTruthy]
  · intro h
    have hq : (format_param p).default = pyDetuple p.default := by
      simp [format_param_default, h]
    refine ⟨hq, ?_⟩
    rw [to_schema_default, hq]
    simp [pyTruthy_pyDetuple, h]

/-- A descriptor with the falsy default `0`. -/
def cpFalsyDefault : ClickParameter :=
  { name := Option.some "f", type := { name := "text" },
    default := PyValue.int 0 }

/-- A descriptor with a truthy tuple default. -/
def cpTupleDefault : ClickParameter :=
  { name := Option.some "g", type := { name := "text" },
    default := PyValue.tuple [PyValue.str "a"] }

/-- Witness for C4 at a falsy (`0`) default and a truthy tuple default. -/
theorem format_param_default_handling_witness :
    olookup (format_param cpFalsyDefault).to_schema "default" = Option.none
    ∧ ((format_param cpTupleDefault).default = pyDetuple cpTupleDefault.default
        ∧ olookup (format_param cpTupleDefault).to_schema "default" =
            Option.some (pyToJson (pyDetuple cpTupleDefault.default))) :=
  ⟨(format_param_default_handling cpFalsyDefault).1 rfl,
    (format_param_default_handling cpTupleDefault).2 rfl⟩

/-! ### Claim C8: items/choices invariants -/

/-- A choice-typed descriptor whose declared choice set is empty. -/
def cpEmptyChoice : ClickParameter :=
  { name := Option.some "c",
    type := { name := "choice", isChoice := true, choices := [] } }

/-- C8 counterexample: on a choice descriptor with an empty choice set,
the normalized `choices` field is present but empty, refuting "the choices
field, when present, is a non-empty sequence". -/
theorem format_param_choices_present_but_empty :
    (format_param cpEmptyChoice).choices = Option.some ([] : List String)
    ∧ ¬(∀ cs, (format_param cpEmptyChoice).choices = Option.some cs →
        cs ≠ []) := by
  refine ⟨rfl, fun h => h [] rfl rfl⟩

/-- C8 (amended): `items` is present only if the resolved type is
"array"; `choices`, when present, equals the descriptor's declared list of
allowed strings (hence non-empty whenever the descriptor declares at least
one choice) and is included only when the descriptor's declared type is
the choice kind. -/
theorem format_param_invariants (p : ClickParameter) :
    ((format_param p).items ≠ Option.none → (format_param p).type = "array")
    ∧ (∀ cs, (format_param p).choices = Option.some cs →
        cs = p.type.choices ∧ p.type.isChoice = true
          ∧ p.type.name = "choice" ∧ (p.type.choices ≠ [] → cs ≠ [])) := by
  constructor
  · intro h
    rw [format_param_items] at h
    rw [format_param_type]
    by_cases hc : (formattedParamType p == "array") = true
    · exact (beq_iff_eq.mp hc)
    · rw [if_neg hc] at h
      exact absurd rfl h
  · intro cs h
    rw [format_param_choices] at h
    by_cases hc : (p.type.name == "choice" && p.type.isChoice) = true
    · rw [if_pos hc] at h
      have hcs : cs = p.type.choices := (Option.some.injEq _ _ ▸ h).symm
      rw [Bool.and_eq_true] at hc
      obtain ⟨hn, hi⟩ := hc
      exact ⟨hcs, hi, beq_iff_eq.mp hn, fun hne => hcs ▸ hne⟩
    · rw [if_neg hc] at h
      exact absurd h (by simp)

/-- A choice-typed descriptor with two declared choices. -/
def cpChoice : ClickParameter :=
  { name := Option.some "ch",
    type := { name := "choice", isChoice := true, choices := ["a", "b"] } }

/-- Witness for C8 at a list-typed descriptor (items side) and a
two-choice descriptor (choices side). -/
theorem format_param_invariants_witness :
    (format_param cpList).type = "array"
    ∧ (["a", "b"] = cpChoice.type.choices ∧ cpChoice.type.isChoice = true
        ∧ cpChoice.type.name = "choice"
        ∧ (cpChoice.type.choices ≠ [] → ["a", "b"] ≠ [])) :=
  ⟨(format_param_invariants cpList).1 (by decide),
    (format_param_invariants cpChoice).2 ["a", "b"] rfl⟩

/-! ### Claim C6: excluded parameters -/

/-- C6: the parameter list extracted from a command never contains the
reserved names `config_env` and `config_file`, never contains a nameless
option, and every entry comes from a `click.core.Option` of the command
via `format_param`. -/
theorem get_params_excludes_reserved (cli : ClickCommand) :
    ∀ q ∈ get_params_from_command cli,
      q.name ≠ "config_env" ∧ q.name ≠ "config_file" ∧ q.name ≠ ""
        ∧ ∃ p ∈ cli.params, p.isOption = true ∧ p.name = Option.some q.name
            ∧ format_param p = q := by
  intro q hq
  unfold get_params_from_command at hq
  rw [List.mem_map] at hq
  obtain ⟨p, hp, hfp⟩ := hq
  rw [List.mem_filter] at hp
  obtain ⟨hmem, hcond⟩ := hp
  rw [Bool.and_eq_true, Bool.and_eq_true] at hcond
  obtain ⟨⟨hname, hopt⟩, hexc⟩ := hcond
  cases hn : p.name with
  | none =>
    rw [hn] at hname
    exact absurd hname (by simp [nameTruthy])
  | some n =>
    rw [hn] at hname hexc
    have hne : n ≠ "" := by simpa [nameTruthy] using hname
    have hnot : n ∉ params_to_exclude := by
      simpa using hexc
    have hqn : q.name = n := by
      rw [← hfp, format_param_name, hn]
      rfl
    rw [hqn]
    refine ⟨?_, ?_, hne, p, hmem, hopt, by rw [hn], hfp⟩
    · intro heq
      exact hnot (by rw [heq]; simp [params_to_exclude])
    · intro heq
      exact hnot (by rw [heq]; simp [params_to_exclude])

/-- A surviving plain option named `bar`. -/
def cpBar : ClickParameter :=
  { name := Option.some "bar", type := { name := "text" } }

/-- A command with a reserved option, a nameless option, a non-Option
parameter and one surviving option. -/
def cliWithReserved : ClickCommand :=
  { name := "foo",
    params :=
      [{ name := Option.some "config_env", type := { name := "text" } },
        { name := Option.none, type := { name := "text" } },
        { name := Option.some "arg", isOption := false,
          type := { name := "text" } },
        cpBar] }

/-- Witness for C6: the single extracted parameter of the concrete
command satisfies the exclusions. -/
theorem get_params_excludes_reserved_witness :
    (format_param cpBar).name ≠ "config_env"
    ∧ (format_param cpBar).name ≠ "config_file"
    ∧ (format_param cpBar).name ≠ ""
    ∧ ∃ p ∈ cliWithReserved.params, p.isOption = true
        ∧ p.name = Option.some (format_param cpBar).name
        ∧ format_param p = format_param cpBar :=
  get_params_excludes_reserved cliWithReserved (format_param cpBar)
    (by
      have h : get_params_from_command cliWithReserved = [format_param cpBar] :=
        rfl
      rw [h]
      exact List.mem_singleton.mpr rfl)

/-! ### Claim C5: the transitional exclusion set -/

lemma foldl_updateKey_fresh (ps : List SamCliParameterSchema) :
    ∀ acc : List (String × Json),
      (ps.map SamCliParameterSchema.name).Nodup →
      (∀ kv ∈ acc, kv.1 ∉ ps.map SamCliParameterSchema.name) →
      ps.foldl (fun a param => updateKey a param.name (Json.obj param.to_schema)) acc
        = acc ++ ps.map (fun param => (param.name, Json.obj param.to_schema)) := by
  induction ps with
  | nil =>
    intro acc _ _
    simp
  | cons q rest ih =>
    intro acc hnodup hfresh
    have hnodup' : q.name ∉ rest.map SamCliParameterSchema.name
        ∧ (rest.map SamCliParameterSchema.name).Nodup := by
      rw [List.map_cons, List.nodup_cons] at hnodup
      exact hnodup
    have hnotany : ¬ acc.any (fun kv => kv.1 == q.name) = true := by
      intro hany
      obtain ⟨kv, hkv, hbeq⟩ := List.any_eq_true.mp hany
      refine hfresh kv hkv ?_
      rw [List.map_cons, beq_iff_eq.mp hbeq]
      exact List.mem_cons_self _ _
    simp only [List.foldl_cons]
    rw [show updateKey acc q.name (Json.obj q.to_schema) =
        acc ++ [(q.name, Json.obj q.to_schema)] from by
      rw [updateKey, if_neg hnotany]]
    rw [ih (acc ++ [(q.name, Json.obj q.to_schema)]) hnodup'.2 ?_]
    · simp
    · intro kv hkv
      rcases List.mem_append.mp hkv with hin | hsing
      · intro hm
        exact hfresh kv hin (by rw [List.map_cons]; exact List.mem_cons_of_mem _ hm)
      · rw [List.mem_singleton.mp hsing]
        exact hnodup'.1

/-- C5: a command whose first name segment is in the fixed exclusion set
gets an empty `properties.parameters.properties` object and a parameters
description without the per-parameter bullet list, even when it has
declared parameters; a command outside the set (with distinct parameter
names) gets one properties entry per parameter, in order. -/
theorem excluded_commands_redacted (c : SamCliCommandSchema) :
    (COMMANDS_TO_EXCLUDE.contains ((pySplit c.name '_').headD "") = true →
      jPath c.schemaValue ["properties", "parameters", "properties"] =
          Option.some (Json.obj [])
        ∧ jPath c.schemaValue ["properties", "parameters", "description"] =
            Option.some (Json.str ("Available parameters for the "
              ++ String.intercalate " " (pySplit c.name '_') ++ " command:\n")))
    ∧ (COMMANDS_TO_EXCLUDE.contains ((pySplit c.name '_').headD "") = false →
        (c.parameters.map SamCliParameterSchema.name).Nodup →
      jPath c.schemaValue ["properties", "parameters", "properties"] =
        Option.some (Json.obj (c.parameters.map
          (fun param => (param.name, Json.obj param.to_schema))))) := by
  constructor
  · intro h
    have hm : (pySplit c.name '_').head?.getD "" ∈ COMMANDS_TO_EXCLUDE := by
      simpa using h
    constructor
    · simp [SamCliCommandSchema.schemaValue, jPath, jGet, olookup, hm]
    · simp [SamCliCommandSchema.schemaValue, jPath, jGet, olookup, hm]
  · intro h hnodup
    have hm : (pySplit c.name '_').head?.getD "" ∉ COMMANDS_TO_EXCLUDE := by
      simpa using h
    have hfold := foldl_updateKey_fresh c.parameters [] hnodup (by simp)
    simp only [List.nil_append] at hfold
    simp [SamCliCommandSchema.schemaValue, jPath, jGet, olookup, hm, hfold]

/-- A parameter used by the concrete commands below. -/
def pX : SamCliParameterSchema := { name := "x", type := "string" }

/-- A command whose first segment `deploy` is in the exclusion set. -/
def cmdDeploy : SamCliCommandSchema :=
  { name := "deploy", description := "d", parameters := [pX] }

/-- A command outside the exclusion set. -/
def cmdFoo : SamCliCommandSchema :=
  { name := "foo", description := "d", parameters := [pX] }

/-- Witness for C5 at the concrete excluded command `deploy` and the
concrete non-excluded command `foo`, each with one declared parameter. -/
theorem excluded_commands_redacted_witness :
    (jPath cmdDeploy.schemaValue ["properties", "parameters", "properties"] =
        Option.some (Json.obj [])
      ∧ jPath cmdDeploy.schemaValue ["properties", "parameters", "description"] =
          Option.some (Json.str ("Available parameters for the "
            ++ String.intercalate " " (pySplit cmdDeploy.name '_')
            ++ " command:\n")))
    ∧ jPath cmdFoo.schemaValue ["properties", "parameters", "properties"] =
        Option.some (Json.obj (cmdFoo.parameters.map
          (fun param => (param.name, Json.obj param.to_schema)))) :=
  ⟨(excluded_commands_redacted cmdDeploy).1 (by decide),
    (excluded_commands_redacted cmdFoo).2 (by decide) (by decide)⟩

/-! ### Claim C3: shape of `retrieve_command_structure` -/

/-- C3: a leaf package yields exactly one command record named by the
package's short name; a group package with N subcommands yields exactly N
records, named by the Key-Joiner over [short name, subcommand name], in
registry order. -/
theorem retrieve_command_structure_shape (m : CommandModule) :
    (∀ cmd, m.cli = ModuleCli.leaf cmd →
      (retrieve_command_structure m).length = 1
        ∧ (retrieve_command_structure m).map SamCliCommandSchema.name
            = [moduleShortName m.name])
    ∧ (∀ subs, m.cli = ModuleCli.group subs →
      (retrieve_command_structure m).length = subs.length
        ∧ (retrieve_command_structure m).map SamCliCommandSchema.name
            = subs.map (fun s =>
                SamConfig_to_key [moduleShortName m.name, s.name])) := by
  constructor
  · intro cmd hcli
    unfold retrieve_command_structure
    rw [hcli]
    exact ⟨rfl, rfl⟩
  · intro subs hcli
    unfold retrieve_command_structure
    rw [hcli]
    constructor
    · simp
    · simp

/-- A leaf command package. -/
def leafMod : CommandModule :=
  { name := "samcli.commands.foo", cli := ModuleCli.leaf { name := "foo" } }

/-- A group command package with two subcommands. -/
def grpMod : CommandModule :=
  { name := "samcli.commands.grp",
    cli := ModuleCli.group [{ name := "a" }, { name := "b" }] }

/-- Witness for C3 at a concrete leaf package and a concrete two-command
group package. -/
theorem retrieve_command_structure_shape_witness :
    ((retrieve_command_structure leafMod).length = 1
      ∧ (retrieve_command_structure leafMod).map SamCliCommandSchema.name
          = [moduleShortName leafMod.name])
    ∧ ((retrieve_command_structure grpMod).length =
          ([{ name := "a" }, { name := "b" }] : List ClickCommand).length
      ∧ (retrieve_command_structure grpMod).map SamCliCommandSchema.name
          = ([{ name := "a" }, { name := "b" }] : List ClickCommand).map
              (fun s => SamConfig_to_key [moduleShortName grpMod.name, s.name])) :=
  ⟨(retrieve_command_structure_shape leafMod).1 { name := "foo" } rfl,
    (retrieve_command_structure_shape grpMod).2
      [{ name := "a" }, { name := "b" }] rfl⟩

/-! ### Claim C1: fixed root keys of `generate_schema` -/

/-- C1: whatever command packages are registered, the generated document
carries the draft-04 `$schema` URI, root `type: object`,
`properties.version` with type `number` and default `0.1`,
`required = ["version"]` and `additionalProperties = false`. -/
theorem generate_schema_fixed_root (registry : List CommandModule) :
    olookup (generate_schema registry) "$schema" =
        Option.some (Json.str "http://json-schema.org/draft-04/schema")
    ∧ olookup (generate_schema registry) "type" =
        Option.some (Json.str "object")
    ∧ olookup (generate_schema registry) "required" =
        Option.some (Json.arr [Json.str "version"])
    ∧ olookup (generate_schema registry) "additionalProperties" =
        Option.some (Json.bool false)
    ∧ jPath (Json.obj (generate_schema registry))
        ["properties", "version", "type"] = Option.some (Json.str "number")
    ∧ jPath (Json.obj (generate_schema registry))
        ["properties", "version", "default"] =
          Option.some (Json.num (0.1 : ℚ)) :=
  ⟨rfl, rfl, rfl, rfl, rfl, rfl⟩

/-! ### Claim C7: last writer wins on duplicate command names -/

lemma find?_map_update (d : List (String × Json)) (k : String) (v : Json)
    (hany : d.any (fun kv => kv.1 == k) = true) :
    (d.map (fun kv => if kv.1 == k then (k, v) else kv)).find?
        (fun kv => kv.1 == k) = some (k, v) := by
  induction d with
  | nil => simp at hany
  | cons a d ih =>
    by_cases ha : (a.1 == k) = true
    · simp [List.find?, ha]
    · rw [List.any_cons, Bool.or_eq_true] at hany
      rcases hany with h | h
      · exact absurd h ha
      · simp only [List.map_cons, if_neg (by simp [ha] : ¬(a.1 == k) = true)]
        rw [List.find?_cons_of_neg _ (by simp [ha])]
        exact ih h

lemma find?_map_update_ne (d : List (String × Json)) (k : String) (v : Json)
    (n : String) (hne : (k == n) = false) :
    (d.map (fun kv => if kv.1 == k then (k, v) else kv)).find?
        (fun kv => kv.1 == n) = d.find? (fun kv => kv.1 == n) := by
  induction d with
  | nil => rfl
  | cons a d ih =>
    by_cases ha : (a.1 == k) = true
    · have hak : a.1 = k := beq_iff_eq.mp ha
      simp only [List.map_cons, if_pos ha]
      rw [List.find?_cons, List.find?_cons]
      simp only [hak, hne]
      exact ih
    · simp only [List.map_cons, if_neg ha]
      rw [List.find?_cons, List.find?_cons]
      cases han : (a.1 == n) with
      | true => simp [han]
      | false =>
        simp only [han]
        exact ih

lemma olookup_updateKey (d : List (String × Json)) (k : String) (v : Json)
    (n : String) :
    olookup (updateKey d k v) n =
      if (k == n) = true then Option.some v else olookup d n := by
  by_cases hk : (k == n) = true
  · rw [if_pos hk, beq_iff_eq.mp hk] at *
    rw [beq_iff_eq.mp hk]
    unfold updateKey olookup
    by_cases hany : d.any (fun kv => kv.1 == n) = true
    · rw [if_pos hany, find?_map_update d n v hany]
      rfl
    · rw [if_neg hany, List.find?_append]
      have hnone : d.find? (fun kv => kv.1 == n) = none := by
        rw [List.find?_eq_none]
        intro kv hkv hb
        exact hany (List.any_eq_true.mpr ⟨kv, hkv, hb⟩)
      rw [hnone]
      simp [List.find?]
  · rw [if_neg hk]
    have hk' : (k == n) = false := by
      cases h : (k == n) with
      | false => rfl
      | true => exact absurd h hk
    unfold updateKey olookup
    by_cases hany : d.any (fun kv => kv.1 == k) = true
    · rw [if_pos hany, find?_map_update_ne d k v n hk']
    · rw [if_neg hany, List.find?_append]
      have hlast : List.find? (fun kv => kv.1 == n) [(k, v)] = none := by
        simp [List.find?, hk']
      rw [hlast]
      simp

lemma olookup_foldl_to_schema (cmds : List SamCliCommandSchema) :
    ∀ (acc : List (String × Json)) (n : String),
      olookup (cmds.foldl (fun a c => dictUpdate a c.to_schema) acc) n
        = match (cmds.filter (fun c => c.name == n)).getLast? with
          | Option.some c => Option.some c.schemaValue
          | Option.none => olookup acc n := by
  induction cmds with
  | nil =>
    intro acc n
    simp
  | cons c rest ih =>
    intro acc n
    simp only [List.foldl_cons, List.filter_cons]
    have hdu : dictUpdate acc c.to_schema = updateKey acc c.name c.schemaValue :=
      rfl
    rw [hdu, ih]
    cases hn : (c.name == n) with
    | true =>
      rw [if_pos rfl]
      cases hfl : rest.filter (fun c => c.name == n) with
      | nil =>
        simp only [List.getLast?_nil, List.getLast?_singleton]
        rw [olookup_updateKey, if_pos hn]
      | cons e l' =>
        rw [List.getLast?_cons_cons]
        cases hgl : (e :: l').getLast? with
        | none =>
          exact absurd (List.getLast?_eq_none_iff.mp hgl) (by simp)
        | some d =>
          rfl
    | false =>
      rw [if_neg (by simp)]
      cases hgl : (rest.filter (fun c => c.name == n)).getLast? with
      | some d =>
        rfl
      | none =>
        show olookup (updateKey acc c.name c.schemaValue) n = olookup acc n
        rw [olookup_updateKey, if_neg (by simp [hn])]

/-- C7: `generate_schema` is total on any registry (no error on duplicate
command names), and the environment wrapper's `properties` entry for a
name is the schema fragment of the last accumulated command bearing that
name — later entries silently overwrite earlier ones. -/
theorem generate_schema_last_writer_wins (registry : List CommandModule)
    (n : String) :
    jPath (Json.obj (generate_schema registry))
        ["patternProperties", "^.+$", "properties", n]
      = match ((allCommands registry).filter
            (fun c => c.name == n)).getLast? with
        | Option.some c => Option.some c.schemaValue
        | Option.none => Option.none := by
  have hp : jPath (Json.obj (generate_schema registry))
      ["patternProperties", "^.+$", "properties", n]
        = olookup (envProperties registry) n := rfl
  have he : envProperties registry
      = (allCommands registry).foldl (fun a c => dictUpdate a c.to_schema) [] :=
    rfl
  rw [hp, he, olookup_foldl_to_schema]
  cases ((allCommands registry).filter (fun c => c.name == n)).getLast? <;> rfl
